import Mathlib

/-!
A shallow embedding of `httpsig/verify.py` (classes `Verifier` and
`HeaderVerifier`) together with the helper functions they call.

Modelling conventions:
* Text is modelled as lists of (ASCII) character codes (`Str := List Nat`);
  `str` turns a Lean string literal into that representation.  Header names
  and all wire data handled by the library are ASCII.
* Byte sequences are `Bytes := List Nat`; Python's `.encode("ascii")` is the
  identity on the code lists (`strBytes`).
* Exceptions are modelled with `Except`: each `raise` site of the source maps
  to an `Except.error` carrying the error classification of spec section 7.
* External cryptographic primitives (pycryptodome RSA verification and the
  HMAC digest) are abstracted as a `CryptoOracle` record; the theorems
  quantify over all oracles.
* Functions of this repository that are not part of `src/` (`utils.py` and
  `sign.py`: `ct_bytes_compare`, `parse_authorization_header`,
  `parse_signature_header`, `generate_message`, `CaseInsensitiveDict`,
  `Signer.__init__`, `DEFAULT_ALGORITHM`) are modelled from the spec; their
  doc comments say so explicitly.
-/

/-- Text, modelled as the list of its (ASCII) character codes. -/
abbrev Str : Type := List Nat

/-- Byte sequences. -/
abbrev Bytes : Type := List Nat

/-- Turn a Lean string literal into its code list. -/
def str (s : String) : Str := s.data.map Char.toNat

/-- Python `str.encode("ascii")`: on ASCII text each character becomes its
code, so on the code-list model it is the identity. -/
def strBytes (s : Str) : Bytes := s

/-- ASCII upper-case letter test. -/
def isUpperAscii (c : Nat) : Bool := decide (65 ≤ c ∧ c ≤ 90)

/-- Python `str.lower` on a single character (ASCII range; header names and
algorithm tags are ASCII). -/
def lowerChar (c : Nat) : Nat := if 65 ≤ c ∧ c ≤ 90 then c + 32 else c

/-- Python `str.lower` on a string. -/
def lowerStr (s : Str) : Str := s.map lowerChar

/-- Python `s.split(' ')` (line 110 of verify.py): split at every single
space character, keeping empty pieces. -/
def splitSp : Str → List Str
  | [] => [[]]
  | c :: cs =>
    match splitSp cs with
    | [] => [[c]]
    | h :: t => if c = 32 then [] :: h :: t else (c :: h) :: t

/-- Python `s.split(' ', 1)` restricted to the case used by the parser:
`some (before, after)` when the string contains a space, `none` otherwise. -/
def splitFirstSpace (s : Str) : Option (Str × Str) :=
  match s.dropWhile (fun c => c != 32) with
  | 32 :: rest => some (s.takeWhile (fun c => c != 32), rest)
  | _ => none

/-- Split a string at its first dash (Python `s.split('-')`, first piece and
remainder), used to derive the algorithm family from a legacy tag. -/
def splitDash (s : Str) : Option (Str × Str) :=
  match s.dropWhile (fun c => c != 45) with
  | 45 :: rest => some (s.takeWhile (fun c => c != 45), rest)
  | _ => none

/-- Drop leading spaces and tabs. -/
def skipWs : Str → Str
  | [] => []
  | c :: cs => if c = 32 ∨ c = 9 then skipWs cs else c :: cs

/-- Value of one character of the standard base64 alphabet. -/
def b64CharVal (c : Nat) : Option Nat :=
  if 65 ≤ c ∧ c ≤ 90 then some (c - 65)
  else if 97 ≤ c ∧ c ≤ 122 then some (c - 97 + 26)
  else if 48 ≤ c ∧ c ≤ 57 then some (c - 48 + 52)
  else if c = 43 then some 62
  else if c = 47 then some 63
  else none

/-- Alphabet character or the padding character (code 61). -/
def isB64Char (c : Nat) : Bool := (b64CharVal c).isSome || c = 61

/-- Decode groups of four base64 characters; padding only in the last group. -/
def b64Groups : List Nat → Option Bytes
  | [] => some []
  | c1 :: c2 :: c3 :: c4 :: rest => do
    let v1 ← b64CharVal c1
    let v2 ← b64CharVal c2
    if c3 = 61 ∧ c4 = 61 ∧ rest = [] then
      some [v1 * 4 + v2 / 16]
    else do
      let v3 ← b64CharVal c3
      if c4 = 61 ∧ rest = [] then
        some [v1 * 4 + v2 / 16, (v2 % 16) * 16 + v3 / 4]
      else do
        let v4 ← b64CharVal c4
        let tail ← b64Groups rest
        some ((v1 * 4 + v2 / 16) :: ((v2 % 16) * 16 + v3 / 4) :: ((v3 % 4) * 64 + v4) :: tail)
  | _ => none

/-- Python `base64.b64decode` (default mode): characters outside the alphabet
are discarded, then the input must consist of four-character groups. -/
def b64decode (s : Str) : Option Bytes := b64Groups (s.filter isB64Char)

/-- Modelled from the spec: `utils.ct_bytes_compare` is not under `src/`.
The comparison loop of the constant-time equality check (spec section 4.3):
it accumulates the OR of the XOR of every pair of the zipped operands and
also returns the number of loop iterations performed, which serves as the
explicit timing model of the loop. -/
def ctScan : List (Nat × Nat) → Nat → Nat × Nat
  | [], acc => (acc, 0)
  | p :: rest, acc =>
    ((ctScan rest (acc ||| (p.1 ^^^ p.2))).1,
     (ctScan rest (acc ||| (p.1 ^^^ p.2))).2 + 1)

/-- Modelled from the spec: the constant-time equality check used by the HMAC
branch of `Verifier._verify`.  A length mismatch answers `false` after the
length test alone; otherwise the XOR-accumulating loop runs over the full
zipped operands and the result is compared with zero at the end. -/
def ct_bytes_compare (a b : Bytes) : Bool :=
  if a.length = b.length then (ctScan (a.zip b) 0).1 == 0 else false

/-- Number of comparison-loop iterations performed by `ct_bytes_compare`
(the timing model of the check). -/
def ctSteps (a b : Bytes) : Nat :=
  if a.length = b.length then (ctScan (a.zip b) 0).2 else 0

/-- Error classification of spec section 7.  In the source every raise site
uses `HttpSigException`, a bare `Exception` (the required-header check) or a
`KeyError`; the constructors record the classification of the site. -/
inductive VerifyError : Type where
  | parseError : VerifyError
  | policyError : List Str → VerifyError
  | missingHeader : VerifyError
  | missingContext : VerifyError
  | unsupportedAlgorithm : VerifyError
  | configError : VerifyError
  | decodeError : VerifyError

deriving instance DecidableEq for VerifyError

deriving instance DecidableEq for Except

/-- The structured signature parameters parsed from the signature-bearing
header (spec section 3): `keyId`, `algorithm`, `signature` are mandatory,
`headers` is optional, unknown keys are preserved. -/
structure SignatureParams : Type where
  keyId : Str
  algorithm : Str
  signature : Str
  headersField : Option Str
  extensions : List (Str × Str)

deriving instance DecidableEq for SignatureParams

/-- A caller-registered algorithm implementation
(`sign_algorithms.SignAlgorithm`): the verification capability. -/
structure SignAlgorithm : Type where
  verify : Bytes → Bytes → Bytes → Bool

/-- The algorithm family dispatched on by `Verifier._verify`:
`self.sign_algorithm` is the string "rsa" or "hmac" for legacy tags, a
`SignAlgorithm` instance for the generic tag, or something else. -/
inductive AlgoFamily : Type where
  | rsa : Str → AlgoFamily
  | hmac : Str → AlgoFamily
  | ext : SignAlgorithm → AlgoFamily
  | other : Str → AlgoFamily

/-- External cryptographic primitives (pycryptodome), abstracted: RSA
signature verification over (hash name, public key, data, signature bytes)
and the keyed HMAC digest over (hash name, secret, data). -/
structure CryptoOracle : Type where
  rsaVerify : Str → Bytes → Bytes → Bytes → Bool
  hmacDigest : Str → Bytes → Bytes → Bytes

/-- Embedding of `Verifier._verify` (verify.py lines 19-45).  `data` and
`sig` arrive as strings and are ascii-encoded first (lines 26-29); the rsa
and hmac branches base64-decode the signature (lines 34 and 38), the
extension branch hands the encoded signature over unchanged (line 42), and
any other family raises "Unsupported algorithm." (line 45). -/
def Verifier.verify_ (fam : AlgoFamily) (secret : Bytes) (o : CryptoOracle)
    (data sig : Str) : Except VerifyError Bool :=
  match fam with
  | AlgoFamily.rsa h =>
    match b64decode sig with
    | some s => Except.ok (o.rsaVerify h secret (strBytes data) s)
    | none => Except.error VerifyError.decodeError
  | AlgoFamily.hmac h =>
    match b64decode sig with
    | some s => Except.ok (ct_bytes_compare (o.hmacDigest h secret (strBytes data)) s)
    | none => Except.error VerifyError.decodeError
  | AlgoFamily.ext impl => Except.ok (impl.verify secret (strBytes data) (strBytes sig))
  | AlgoFamily.other _ => Except.error VerifyError.unsupportedAlgorithm

/-- Key characters of the `key="value"` grammar: anything up to `=`, `,`,
whitespace or a quote. -/
def keyChar (c : Nat) : Bool := !(c = 61 || c = 44 || c = 32 || c = 9 || c = 34)

/-- Unquoted token-value characters: anything up to `,` or whitespace. -/
def tokenChar (c : Nat) : Bool := !(c = 44 || c = 32 || c = 9)

/-- Modelled from the spec: `utils.parse_signature_header` is not under
`src/`.  Comma-separated `key="value"` pairs (or unquoted token values),
tolerant of whitespace around `=` and `,`; truncated input or an unbalanced
quote is a parse error (spec section 4.1).  Fuel-driven recursion; the
caller passes more fuel than the input length. -/
def parsePairs : Nat → Str → Except VerifyError (List (Str × Str))
  | 0, _ => Except.error VerifyError.parseError
  | Nat.succ fuel, s0 =>
    let s1 := skipWs s0
    let key := s1.takeWhile keyChar
    let s2 := s1.dropWhile keyChar
    if key = [] then Except.error VerifyError.parseError
    else
      match skipWs s2 with
      | 61 :: s3 =>
        match skipWs s3 with
        | 34 :: s4 =>
          let v := s4.takeWhile (fun c => c != 34)
          match s4.dropWhile (fun c => c != 34) with
          | 34 :: s5 =>
            (match skipWs s5 with
             | [] => Except.ok [(key, v)]
             | 44 :: s6 => (parsePairs fuel s6).map (fun r => (key, v) :: r)
             | _ => Except.error VerifyError.parseError)
          | _ => Except.error VerifyError.parseError
        | s4 =>
          let v := s4.takeWhile tokenChar
          let s5 := s4.dropWhile tokenChar
          if v = [] then Except.error VerifyError.parseError
          else
            match skipWs s5 with
            | [] => Except.ok [(key, v)]
            | 44 :: s6 => (parsePairs fuel s6).map (fun r => (key, v) :: r)
            | _ => Except.error VerifyError.parseError
      | _ => Except.error VerifyError.parseError

/-- Modelled from the spec: the key/value grammar applied to a whole header
value (spec section 4.1, generic signature header). -/
def parse_signature_header (v : Str) : Except VerifyError (List (Str × Str)) :=
  parsePairs (v.length + 1) v

/-- Modelled from the spec: `utils.parse_authorization_header` is not under
`src/`.  The scheme token is split off at the first space and the remainder
is parsed with the key/value grammar; a value without a space has no scheme
token, which makes the length-two check of `HeaderVerifier.__init__`
(line 81) fail. -/
def parse_authorization_header (v : Str) : Except VerifyError (Str × List (Str × Str)) :=
  match splitFirstSpace v with
  | some (scheme, rest) => (parse_signature_header rest).map (fun kvs => (scheme, kvs))
  | none => Except.error VerifyError.parseError

/-- Modelled from the spec: `CaseInsensitiveDict` lookup (spec section 3,
Header Container): the first entry whose lower-cased name matches. -/
def lookupCI (hs : List (Str × Str)) (k : Str) : Option Str :=
  (hs.find? (fun p => lowerStr p.1 == lowerStr k)).map (fun p => p.2)

/-- Exact-key lookup in the parsed key/value list. -/
def lookupAssoc (kvs : List (Str × Str)) (k : Str) : Option Str :=
  (kvs.find? (fun p => p.1 == k)).map (fun p => p.2)

/-- Build the structured parameters from the parsed key/value list
(spec section 3: `keyId`, `algorithm`, `signature` mandatory, `headers`
optional, unknown keys preserved under extensions). -/
def extractParams (kvs : List (Str × Str)) : Except VerifyError SignatureParams :=
  match lookupAssoc kvs (str "keyId"), lookupAssoc kvs (str "algorithm"),
      lookupAssoc kvs (str "signature") with
  | some k, some a, some sg =>
    Except.ok ⟨k, a, sg, lookupAssoc kvs (str "headers"),
      kvs.filter (fun p =>
        !(p.1 == str "keyId" || p.1 == str "algorithm" ||
          p.1 == str "signature" || p.1 == str "headers"))⟩
  | _, _, _ => Except.error VerifyError.parseError

/-- Modelled from the spec: `sign.DEFAULT_ALGORITHM` is not under `src/`.
The generic/extensible scheme tag; the docstring of
`HeaderVerifier.__init__` (line 73) names it hs2019. -/
def DEFAULT_ALGORITHM : Str := str "hs2019"

/-- The eight legacy fixed algorithm combinations (spec section 3). -/
def legacyTags : List Str :=
  [str "hmac-sha1", str "hmac-sha256", str "hmac-sha384", str "hmac-sha512",
   str "rsa-sha1", str "rsa-sha256", str "rsa-sha384", str "rsa-sha512"]

/-- Modelled from the spec: `Signer.__init__` (sign.py, not under `src/`)
maps the declared tag to the dispatch family: the generic tag uses the
caller-supplied implementation, a legacy tag is split at the dash into
family and digest name, anything else is outside the closed set. -/
def signerFamily (tag : Str) (ext? : Option SignAlgorithm) : AlgoFamily :=
  if tag = DEFAULT_ALGORITHM then
    match ext? with
    | some impl => AlgoFamily.ext impl
    | none => AlgoFamily.other tag
  else
    match splitDash tag with
    | some (f, h) =>
      if f = str "hmac" then AlgoFamily.hmac h
      else if f = str "rsa" then AlgoFamily.rsa h
      else AlgoFamily.other tag
    | none => AlgoFamily.other tag

/-- Line 76: `required_headers = required_headers or ['date']` — `None` and
the empty list are falsy in Python, so both are replaced by the default. -/
def defaultRequired : Option (List Str) → List Str
  | none => [str "date"]
  | some [] => [str "date"]
  | some (h :: t) => h :: t

/-- The constructor arguments of `HeaderVerifier.__init__` (lines 53-54). -/
structure HeaderVerifierArgs : Type where
  headers : List (Str × Str)
  secret : Bytes
  required_headers? : Option (List Str)
  method? : Option Str
  path? : Option Str
  host? : Option Str
  sign_header : Str
  sign_algorithm? : Option SignAlgorithm

/-- Lines 79-86: fetch the signature-bearing header (case-insensitively) and
parse it; an absent header or a failed parse is a parse error.  The
mandatory-key check of the spec (section 4.1) is part of the modelled
parser. -/
def obtainParams (args : HeaderVerifierArgs) : Except VerifyError SignatureParams :=
  if lowerStr args.sign_header = str "authorization" then
    match lookupCI args.headers (str "authorization") with
    | some raw =>
      match parse_authorization_header raw with
      | Except.ok pr => extractParams pr.2
      | Except.error e => Except.error e
    | none => Except.error VerifyError.parseError
  else
    match lookupCI args.headers args.sign_header with
    | some raw =>
      match parse_signature_header raw with
      | Except.ok kvs => extractParams kvs
      | Except.error e => Except.error e
    | none => Except.error VerifyError.parseError

/-- The state built by a successful `HeaderVerifier.__init__`.  `advisory`
records whether the deprecation advisory of line 94 was emitted. -/
structure HeaderVerifier : Type where
  headers : List (Str × Str)
  secret : Bytes
  required_headers : List Str
  method? : Option Str
  path? : Option Str
  host? : Option Str
  params : SignatureParams
  family : AlgoFamily
  advisory : Bool

/-- Embedding of `HeaderVerifier.__init__` (lines 53-99): parse the
signature-bearing header, lower-case the required headers (line 88), raise
the configuration error when the generic tag has no supplied implementation
(lines 93-96, otherwise only a non-fatal advisory), then build the
dispatcher state (line 98-99). -/
def HeaderVerifier.init (args : HeaderVerifierArgs) : Except VerifyError HeaderVerifier :=
  match obtainParams args with
  | Except.error e => Except.error e
  | Except.ok params =>
    if params.algorithm = DEFAULT_ALGORITHM ∧ args.sign_algorithm?.isNone then
      Except.error VerifyError.configError
    else
      Except.ok ⟨args.headers, args.secret,
        (defaultRequired args.required_headers?).map lowerStr,
        args.method?, args.path?, args.host?, params,
        signerFamily params.algorithm args.sign_algorithm?,
        decide (params.algorithm ≠ DEFAULT_ALGORITHM)⟩

/-- Modelled from the spec: one line of `utils.generate_message` (Canonical
String Builder, spec section 4.2; not under `src/`). -/
def canonicalLine (headers : List (Str × Str)) (host? method? path? : Option Str)
    (name : Str) : Except VerifyError Str :=
  if name = str "(request-target)" then
    match method?, path? with
    | some m, some p => Except.ok (str "(request-target): " ++ lowerStr m ++ (32 :: p))
    | _, _ => Except.error VerifyError.missingContext
  else
    match lookupCI headers name with
    | some v => Except.ok (lowerStr name ++ str ": " ++ v)
    | none =>
      if lowerStr name = str "host" then
        match host? with
        | some hv => Except.ok (lowerStr name ++ str ": " ++ hv)
        | none => Except.error VerifyError.missingHeader
      else Except.error VerifyError.missingHeader

/-- Join lines with a single newline, no trailing newline. -/
def joinNl : List Str → Str
  | [] => []
  | [x] => x
  | x :: y :: t => x ++ (10 :: joinNl (y :: t))

/-- Modelled from the spec: `utils.generate_message` (spec section 4.2). -/
def generate_message (names : List Str) (headers : List (Str × Str))
    (host? method? path? : Option Str) : Except VerifyError Str :=
  (names.mapM (canonicalLine headers host? method? path?)).map joinNl

/-- Line 110: `auth_headers = self.auth_dict.get('headers', 'date').split(' ')`. -/
def authHeadersOf (p : SignatureParams) : List Str :=
  splitSp (p.headersField.getD (str "date"))

/-- Lines 112-114: `set(self.required_headers) - set(auth_headers)`, as the
deduplicated list of required names absent from the signed-headers list. -/
def missingOf (required authHeaders : List Str) : List Str :=
  (required.filter (fun h => !(authHeaders.contains h))).dedup

/-- Embedding of `HeaderVerifier.verify` (lines 101-121): the required-header
policy check runs first and raises naming the missing headers; only then is
the canonical string built and handed to the dispatcher together with the
signature field. -/
def HeaderVerifier.verify (v : HeaderVerifier) (o : CryptoOracle) : Except VerifyError Bool :=
  if missingOf v.required_headers (authHeadersOf v.params) = [] then
    match generate_message (authHeadersOf v.params) v.headers v.host? v.method? v.path? with
    | Except.ok signing_str => Verifier.verify_ v.family v.secret o signing_str v.params.signature
    | Except.error e => Except.error e
  else
    Except.error (VerifyError.policyError (missingOf v.required_headers (authHeadersOf v.params)))

theorem or_eq_zero_iff_both (a b : Nat) : a ||| b = 0 ↔ a = 0 ∧ b = 0 := by
  constructor
  · intro h
    have hbit : ∀ i, a.testBit i = false ∧ b.testBit i = false := by
      intro i
      have := congrArg (fun n => Nat.testBit n i) h
      simp only [Nat.testBit_or, Nat.zero_testBit, Bool.or_eq_false_iff] at this
      exact this
    exact ⟨Nat.eq_of_testBit_eq (fun i => by simp [(hbit i).1, Nat.zero_testBit]),
           Nat.eq_of_testBit_eq (fun i => by simp [(hbit i).2, Nat.zero_testBit])⟩
  · rintro ⟨rfl, rfl⟩
    rfl

theorem ctScan_snd (l : List (Nat × Nat)) (acc : Nat) : (ctScan l acc).2 = l.length := by
  induction l generalizing acc with
  | nil => rfl
  | cons p rest ih => simp [ctScan, ih]

theorem ctScan_fst_eq_zero (l : List (Nat × Nat)) (acc : Nat) :
    (ctScan l acc).1 = 0 ↔ acc = 0 ∧ ∀ p ∈ l, p.1 = p.2 := by
  induction l generalizing acc with
  | nil => simp [ctScan]
  | cons p rest ih =>
    have hstep : (ctScan (p :: rest) acc).1 = (ctScan rest (acc ||| (p.1 ^^^ p.2))).1 := rfl
    rw [hstep, ih, or_eq_zero_iff_both, Nat.xor_eq_zero]
    constructor
    · rintro ⟨⟨h0, hxy⟩, hall⟩
      refine ⟨h0, ?_⟩
      intro q hq
      rcases List.mem_cons.mp hq with hq1 | hq2
      · rw [hq1]
        exact hxy
      · exact hall q hq2
    · rintro ⟨h0, hall⟩
      refine ⟨⟨h0, hall p (List.mem_cons_self p rest)⟩, ?_⟩
      intro q hq
      exact hall q (List.mem_cons_of_mem p hq)

theorem zip_forall_eq (a b : Bytes) (h : a.length = b.length) :
    (∀ p ∈ a.zip b, p.1 = p.2) ↔ a = b := by
  induction a generalizing b with
  | nil =>
    cases b with
    | nil => simp
    | cons y ys => simp at h
  | cons x xs ih =>
    cases b with
    | nil => simp at h
    | cons y ys =>
      have h' : xs.length = ys.length := by simpa using h
      have hz : (x :: xs).zip (y :: ys) = (x, y) :: xs.zip ys := rfl
      rw [hz]
      constructor
      · intro hall
        have h1 : x = y := hall (x, y) (List.mem_cons_self _ _)
        have h2 : xs = ys := (ih ys h').mp (fun q hq => hall q (List.mem_cons_of_mem _ hq))
        rw [h1, h2]
      · intro heq
        injection heq with h1 h2
        subst h1
        subst h2
        intro q hq
        rcases List.mem_cons.mp hq with hq1 | hq2
        · rw [hq1]
        · exact ((ih xs rfl).mpr rfl) q hq2

theorem ct_bytes_compare_eq_true_iff (a b : Bytes) : ct_bytes_compare a b = true ↔ a = b := by
  unfold ct_bytes_compare
  by_cases h : a.length = b.length
  · simp only [h, if_true, beq_iff_eq, ctScan_fst_eq_zero, true_and]
    exact (zip_forall_eq a b h)
  · simp only [h, if_false]
    constructor
    · intro hfx
      exact absurd hfx (by simp)
    · intro hab
      exact absurd (hab ▸ rfl) h

theorem ctSteps_only_lengths (a b : Bytes) :
    ctSteps a b = if a.length = b.length then a.length else 0 := by
  unfold ctSteps
  by_cases h : a.length = b.length
  · simp [h, ctScan_snd, List.length_zip, Nat.min_eq_left (Nat.le_of_eq h)]
  · simp [h]

theorem isUpperAscii_lowerChar (c : Nat) : isUpperAscii (lowerChar c) = false := by
  unfold isUpperAscii lowerChar
  by_cases h : 65 ≤ c ∧ c ≤ 90
  · rw [if_pos h, decide_eq_false_iff_not]
    omega
  · rw [if_neg h, decide_eq_false_iff_not]
    exact h

theorem lowerStr_no_upper (s : Str) (c : Nat) (hc : c ∈ lowerStr s) :
    isUpperAscii c = false := by
  unfold lowerStr at hc
  rcases List.mem_map.mp hc with ⟨d, _, rfl⟩
  exact isUpperAscii_lowerChar d

theorem lowerStr_ne_of_upper_mem (r h : Str) (hup : ∃ c, c ∈ h ∧ isUpperAscii c = true) :
    lowerStr r ≠ h := by
  rcases hup with ⟨c, hmem, hupper⟩
  intro heq
  have := lowerStr_no_upper r c (heq ▸ hmem)
  rw [this] at hupper
  exact Bool.false_ne_true hupper

theorem dropWhile_append_space (scheme rest : Str) (h : ∀ c ∈ scheme, c ≠ 32) :
    (scheme ++ 32 :: rest).dropWhile (fun c => c != 32) = 32 :: rest := by
  induction scheme with
  | nil => simp [List.dropWhile]
  | cons c cs ih =>
    have hc : c ≠ 32 := h c (List.mem_cons_self c cs)
    have hbne : (c != 32) = true := by simpa using hc
    simp only [List.cons_append, List.dropWhile, hbne]
    exact ih (fun d hd => h d (List.mem_cons_of_mem c hd))

theorem takeWhile_append_space (scheme rest : Str) (h : ∀ c ∈ scheme, c ≠ 32) :
    (scheme ++ 32 :: rest).takeWhile (fun c => c != 32) = scheme := by
  induction scheme with
  | nil => simp [List.takeWhile]
  | cons c cs ih =>
    have hc : c ≠ 32 := h c (List.mem_cons_self c cs)
    have hbne : (c != 32) = true := by simpa using hc
    simp only [List.cons_append, List.takeWhile, hbne]
    exact congrArg (c :: ·) (ih (fun d hd => h d (List.mem_cons_of_mem c hd)))

theorem splitFirstSpace_append (scheme rest : Str) (h : ∀ c ∈ scheme, c ≠ 32) :
    splitFirstSpace (scheme ++ 32 :: rest) = some (scheme, rest) := by
  unfold splitFirstSpace
  rw [dropWhile_append_space scheme rest h, takeWhile_append_space scheme rest h]

theorem init_ok_fields (args : HeaderVerifierArgs) (p : SignatureParams)
    (hv : HeaderVerifier) (hp : obtainParams args = Except.ok p)
    (hinit : HeaderVerifier.init args = Except.ok hv) :
    hv = ⟨args.headers, args.secret,
      (defaultRequired args.required_headers?).map lowerStr,
      args.method?, args.path?, args.host?, p,
      signerFamily p.algorithm args.sign_algorithm?,
      decide (p.algorithm ≠ DEFAULT_ALGORITHM)⟩ := by
  unfold HeaderVerifier.init at hinit
  rw [hp] at hinit
  split at hinit
  · exact absurd hinit (by simp)
  · rename_i x params heq
    injection heq with hpe
    subst hpe
    split at hinit
    · exact absurd hinit (by simp)
    · injection hinit with h
      exact h.symm

/-- A trivial concrete crypto oracle for witnesses. -/
def oracle0 : CryptoOracle := ⟨fun _ _ _ _ => false, fun _ _ _ => []⟩

/-- Concrete parameters whose signed-headers list is ["date"]. -/
def cParamsDateOnly : SignatureParams :=
  ⟨str "k", str "hmac-sha256", str "aGk=", some (str "date"), []⟩

/-- C1: whenever the set of required headers minus the signed-headers list of
the parsed parameters is non-empty, `HeaderVerifier.verify` fails with the
policy error naming exactly those missing headers — and it does so for every
header map, request context, algorithm family and crypto oracle, so the
canonical string is never needed and no cryptographic check can influence
the result. -/
theorem policy_failure_blocks_verification
    (headers : List (Str × Str)) (secret : Bytes) (required : List Str)
    (m pa ho : Option Str) (params : SignatureParams) (fam : AlgoFamily)
    (adv : Bool) (o : CryptoOracle)
    (h : missingOf required (authHeadersOf params) ≠ []) :
    HeaderVerifier.verify ⟨headers, secret, required, m, pa, ho, params, fam, adv⟩ o =
      Except.error (VerifyError.policyError (missingOf required (authHeadersOf params))) := by
  unfold HeaderVerifier.verify
  rw [if_neg h]

/-- Witness for C1: required headers date and digest, signed headers only
date: the verifier raises the policy error naming digest. -/
theorem policy_failure_blocks_verification_witness :
    HeaderVerifier.verify ⟨[], [], [str "date", str "digest"], none, none, none,
      cParamsDateOnly, AlgoFamily.other (str "x"), true⟩ oracle0 =
      Except.error (VerifyError.policyError [str "digest"]) := by
  have h := policy_failure_blocks_verification [] [] [str "date", str "digest"]
    none none none cParamsDateOnly (AlgoFamily.other (str "x")) true oracle0 (by decide)
  have he : missingOf [str "date", str "digest"] (authHeadersOf cParamsDateOnly) =
      [str "digest"] := by decide
  rw [he] at h
  exact h

/-- C5: a declared algorithm tag that is neither the generic tag nor a
recognized hmac/rsa combination maps to the family outside the closed set,
and dispatching on that family (with no registered extension) fails with the
unsupported-algorithm error instead of returning a boolean. -/
theorem unsupported_algorithm_fails
    (tag : Str) (secret : Bytes) (o : CryptoOracle) (data sig : Str)
    (hdef : tag ≠ DEFAULT_ALGORITHM)
    (hfam : ∀ pre rest, splitDash tag = some (pre, rest) →
      pre ≠ str "hmac" ∧ pre ≠ str "rsa") :
    signerFamily tag none = AlgoFamily.other tag ∧
    Verifier.verify_ (signerFamily tag none) secret o data sig =
      Except.error VerifyError.unsupportedAlgorithm := by
  have hfam' : signerFamily tag none = AlgoFamily.other tag := by
    unfold signerFamily
    rw [if_neg hdef]
    cases hsd : splitDash tag with
    | none => rfl
    | some pr =>
      obtain ⟨pre, rest⟩ := pr
      rcases hfam pre rest hsd with ⟨h1, h2⟩
      simp only [if_neg h1, if_neg h2]
  exact ⟨hfam', by rw [hfam']; rfl⟩

/-- Witness for C5: the tag "unknown" dispatches to the
unsupported-algorithm error. -/
theorem unsupported_algorithm_fails_witness :
    Verifier.verify_ (signerFamily (str "unknown") none) [] oracle0 [] [] =
      Except.error VerifyError.unsupportedAlgorithm := by
  refine (unsupported_algorithm_fails (str "unknown") [] oracle0 [] [] (by decide) ?_).2
  intro pre rest hsd
  rw [show splitDash (str "unknown") = none from rfl] at hsd
  exact Option.noConfusion hsd

/-- C6: a parsed parameter set that omits the headers field is treated as
having exactly the signed-headers list ["date"]: that is the list the
verifier computes, and verification behaves identically to the same
parameters carrying an explicit headers field "date". -/
theorem headers_field_defaults_to_date (p : SignatureParams)
    (hnone : p.headersField = none) :
    authHeadersOf p = [str "date"] ∧
    (∀ headers secret required m pa ho fam adv o,
      HeaderVerifier.verify ⟨headers, secret, required, m, pa, ho, p, fam, adv⟩ o =
      HeaderVerifier.verify ⟨headers, secret, required, m, pa, ho,
        ⟨p.keyId, p.algorithm, p.signature, some (str "date"), p.extensions⟩, fam, adv⟩ o) := by
  have h1 : authHeadersOf p = [str "date"] := by
    unfold authHeadersOf
    rw [hnone]
    rfl
  have h2 : authHeadersOf ⟨p.keyId, p.algorithm, p.signature, some (str "date"), p.extensions⟩ =
      [str "date"] := by
    unfold authHeadersOf
    rfl
  refine ⟨h1, ?_⟩
  intro headers secret required m pa ho fam adv o
  unfold HeaderVerifier.verify
  dsimp only
  rw [h1, h2]

/-- Concrete parameters omitting the headers field. -/
def cParamsNoHeaders : SignatureParams := ⟨str "k", str "hs2019", str "aGk=", none, []⟩

/-- Witness for C6 at concrete parameters without a headers field. -/
theorem headers_field_defaults_to_date_witness :
    authHeadersOf cParamsNoHeaders = [str "date"] ∧
    HeaderVerifier.verify ⟨[], [], [], none, none, none, cParamsNoHeaders,
      AlgoFamily.other (str "x"), true⟩ oracle0 =
    HeaderVerifier.verify ⟨[], [], [], none, none, none,
      ⟨cParamsNoHeaders.keyId, cParamsNoHeaders.algorithm, cParamsNoHeaders.signature,
       some (str "date"), cParamsNoHeaders.extensions⟩,
      AlgoFamily.other (str "x"), true⟩ oracle0 := by
  have h := headers_field_defaults_to_date cParamsNoHeaders rfl
  exact ⟨h.1, h.2 [] [] [] none none none (AlgoFamily.other (str "x")) true oracle0⟩

/-- C4: the hmac branch of the dispatcher computes the keyed digest with the
tag-selected hash and compares it to the base64-decoded signature with the
constant-time check; the check returns true exactly when the two byte
sequences are equal, and its loop-iteration count is a function of the
operand lengths alone — the full common length when the lengths match (so
the loop never stops early at a mismatch position) and a constant after the
length test when they differ. -/
theorem hmac_constant_time_verification :
    (∀ hsh secret o data sig s, b64decode sig = some s →
      Verifier.verify_ (AlgoFamily.hmac hsh) secret o data sig =
        Except.ok (ct_bytes_compare (o.hmacDigest hsh secret (strBytes data)) s)) ∧
    (∀ a b : Bytes, ct_bytes_compare a b = true ↔ a = b) ∧
    (∀ a b : Bytes, ctSteps a b = if a.length = b.length then a.length else 0) := by
  refine ⟨?_, ct_bytes_compare_eq_true_iff, ctSteps_only_lengths⟩
  intro hsh secret o data sig s hdec
  unfold Verifier.verify_
  rw [hdec]

/-- Witness for C4: signature "AQI=" decodes to [1, 2] and the hmac branch
answers with the constant-time comparison of the oracle digest against it. -/
theorem hmac_constant_time_verification_witness :
    b64decode (str "AQI=") = some [1, 2] ∧
    Verifier.verify_ (AlgoFamily.hmac (str "sha256")) [] oracle0 [] (str "AQI=") =
      Except.ok (ct_bytes_compare (oracle0.hmacDigest (str "sha256") [] (strBytes [])) [1, 2]) := by
  refine ⟨by decide, ?_⟩
  exact hmac_constant_time_verification.1 (str "sha256") [] oracle0 [] (str "AQI=") [1, 2]
    (by decide)

/-- C7: when the policy check passes and the canonical string is built, the
verifier returns exactly the dispatcher's boolean, never overriding it; for
the hmac family a mismatching digest yields the plain boolean false rather
than an error. -/
theorem verify_returns_dispatch_boolean
    (v : HeaderVerifier) (o : CryptoOracle) (msg : Str)
    (hpol : missingOf v.required_headers (authHeadersOf v.params) = [])
    (hmsg : generate_message (authHeadersOf v.params) v.headers v.host? v.method? v.path? =
      Except.ok msg) :
    HeaderVerifier.verify v o = Verifier.verify_ v.family v.secret o msg v.params.signature ∧
    (∀ hsh secret data sig s, b64decode sig = some s →
      o.hmacDigest hsh secret (strBytes data) ≠ s →
      Verifier.verify_ (AlgoFamily.hmac hsh) secret o data sig = Except.ok false) := by
  constructor
  · unfold HeaderVerifier.verify
    rw [if_pos hpol, hmsg]
  · intro hsh secret data sig s hdec hne
    have hstep : Verifier.verify_ (AlgoFamily.hmac hsh) secret o data sig =
        Except.ok (ct_bytes_compare (o.hmacDigest hsh secret (strBytes data)) s) := by
      unfold Verifier.verify_
      rw [hdec]
    have hfx : ct_bytes_compare (o.hmacDigest hsh secret (strBytes data)) s = false := by
      rw [Bool.eq_false_iff]
      intro htrue
      exact hne ((ct_bytes_compare_eq_true_iff _ _).mp htrue)
    rw [hstep, hfx]

/-- A concrete verifier whose policy passes and whose canonical string
builds. -/
def cVerifier7 : HeaderVerifier :=
  ⟨[(str "date", str "today")], [], [str "date"], none, none, none,
   cParamsDateOnly, AlgoFamily.hmac (str "sha256"), true⟩

/-- Witness for C7: the verifier returns the dispatcher's value on the built
canonical string, and a concrete hmac mismatch yields the boolean false. -/
theorem verify_returns_dispatch_boolean_witness :
    HeaderVerifier.verify cVerifier7 oracle0 =
      Verifier.verify_ cVerifier7.family cVerifier7.secret oracle0 (str "date: today")
        cVerifier7.params.signature ∧
    Verifier.verify_ (AlgoFamily.hmac (str "sha256")) [] oracle0 [] (str "AQI=") =
      Except.ok false := by
  have h := verify_returns_dispatch_boolean cVerifier7 oracle0 (str "date: today")
    (by decide) (by decide)
  exact ⟨h.1, h.2 (str "sha256") [] [] (str "AQI=") [1, 2] (by decide) (by decide)⟩

/-- The extension implementation of the C3 counterexample: accepts exactly
the base64-decoding of "aGk=". -/
def cexImpl : SignAlgorithm := ⟨fun _ _ sg => sg == [104, 105]⟩

/-- C3 counterexample: the dispatcher hands the caller-registered extension
the ascii wire form of the signature, not its base64 decoding: with
signature "aGk=" (which decodes to [104, 105]) an implementation accepting
exactly those decoded bytes answers false, because it is given the encoded
bytes [97, 71, 107, 61] instead. -/
theorem extension_receives_wire_signature_cex :
    b64decode (str "aGk=") = some [104, 105] ∧
    cexImpl.verify [] (strBytes []) [104, 105] = true ∧
    Verifier.verify_ (AlgoFamily.ext cexImpl) [] oracle0 [] (str "aGk=") = Except.ok false := by
  exact ⟨by decide, by decide, rfl⟩

/-- C3 amended: the built-in rsa and hmac branches receive the
base64-decoded signature bytes, while the caller-registered extension's
verify capability receives the ascii-encoded wire signature unchanged. -/
theorem signature_decoding_per_family :
    (∀ hsh secret o data sig s, b64decode sig = some s →
      Verifier.verify_ (AlgoFamily.hmac hsh) secret o data sig =
        Except.ok (ct_bytes_compare (o.hmacDigest hsh secret (strBytes data)) s)) ∧
    (∀ hsh secret o data sig s, b64decode sig = some s →
      Verifier.verify_ (AlgoFamily.rsa hsh) secret o data sig =
        Except.ok (o.rsaVerify hsh secret (strBytes data) s)) ∧
    (∀ impl secret o data sig,
      Verifier.verify_ (AlgoFamily.ext impl) secret o data sig =
        Except.ok (impl.verify secret (strBytes data) (strBytes sig))) := by
  refine ⟨?_, ?_, fun impl secret o data sig => rfl⟩
  · intro hsh secret o data sig s hdec
    unfold Verifier.verify_
    rw [hdec]
  · intro hsh secret o data sig s hdec
    unfold Verifier.verify_
    rw [hdec]

/-- Witness for the amended C3: concrete rsa dispatch on decoded bytes and
concrete extension dispatch on the wire bytes. -/
theorem signature_decoding_per_family_witness :
    Verifier.verify_ (AlgoFamily.rsa (str "sha256")) [] oracle0 [] (str "aGk=") =
      Except.ok (oracle0.rsaVerify (str "sha256") [] (strBytes []) [104, 105]) ∧
    Verifier.verify_ (AlgoFamily.ext cexImpl) [] oracle0 [] (str "aGk=") =
      Except.ok (cexImpl.verify [] (strBytes []) (strBytes (str "aGk="))) := by
  exact ⟨signature_decoding_per_family.2.1 (str "sha256") [] oracle0 [] (str "aGk=")
      [104, 105] (by decide),
    signature_decoding_per_family.2.2 cexImpl [] oracle0 [] (str "aGk=")⟩

theorem init_eq_of_params (args : HeaderVerifierArgs) (p : SignatureParams)
    (hp : obtainParams args = Except.ok p) :
    HeaderVerifier.init args =
      if p.algorithm = DEFAULT_ALGORITHM ∧ args.sign_algorithm?.isNone then
        Except.error VerifyError.configError
      else Except.ok ⟨args.headers, args.secret,
        (defaultRequired args.required_headers?).map lowerStr,
        args.method?, args.path?, args.host?, p,
        signerFamily p.algorithm args.sign_algorithm?,
        decide (p.algorithm ≠ DEFAULT_ALGORITHM)⟩ := by
  unfold HeaderVerifier.init
  rw [hp]

/-- C2: after a successful parse, a declared generic tag (hs2019) together
with no supplied implementation makes construction fail fast with the
configuration error, while a declared legacy fixed combination makes
construction succeed with only the non-fatal deprecation advisory, whatever
the remaining constructor arguments. -/
theorem hs2019_requires_sign_algorithm
    (args : HeaderVerifierArgs) (p : SignatureParams)
    (hp : obtainParams args = Except.ok p) :
    (p.algorithm = DEFAULT_ALGORITHM → args.sign_algorithm? = none →
      HeaderVerifier.init args = Except.error VerifyError.configError) ∧
    (p.algorithm ∈ legacyTags →
      ∃ hv, HeaderVerifier.init args = Except.ok hv ∧ hv.advisory = true) := by
  constructor
  · intro halg hnone
    rw [init_eq_of_params args p hp, if_pos ⟨halg, by rw [hnone]; rfl⟩]
  · intro hleg
    have hne : p.algorithm ≠ DEFAULT_ALGORITHM := by
      simp only [legacyTags, List.mem_cons, List.not_mem_nil, or_false] at hleg
      rcases hleg with h|h|h|h|h|h|h|h <;> (rw [h]; decide)
    refine ⟨⟨args.headers, args.secret,
      (defaultRequired args.required_headers?).map lowerStr,
      args.method?, args.path?, args.host?, p,
      signerFamily p.algorithm args.sign_algorithm?,
      decide (p.algorithm ≠ DEFAULT_ALGORITHM)⟩, ?_, ?_⟩
    · rw [init_eq_of_params args p hp, if_neg (fun hc => hne hc.1)]
    · simp [hne]

/-- Concrete authorization value declaring the generic tag. -/
def cAuthHs : Str := str "Signature keyId=\"k\",algorithm=\"hs2019\",signature=\"aGk=\""

/-- Constructor arguments declaring hs2019 with no implementation. -/
def cArgsHs : HeaderVerifierArgs :=
  ⟨[(str "authorization", cAuthHs)], [], none, none, none, none, str "authorization", none⟩

/-- Concrete authorization value declaring a legacy combination. -/
def cAuthLegacy : Str := str "Signature keyId=\"k\",algorithm=\"hmac-sha256\",signature=\"aGk=\""

/-- Constructor arguments declaring hmac-sha256. -/
def cArgsLegacy : HeaderVerifierArgs :=
  ⟨[(str "authorization", cAuthLegacy)], [], none, none, none, none, str "authorization", none⟩

/-- Witness for C2: hs2019 without an implementation is rejected at
construction; hmac-sha256 constructs with the advisory. -/
theorem hs2019_requires_sign_algorithm_witness :
    HeaderVerifier.init cArgsHs = Except.error VerifyError.configError ∧
    ∃ hv, HeaderVerifier.init cArgsLegacy = Except.ok hv ∧ hv.advisory = true := by
  constructor
  · exact (hs2019_requires_sign_algorithm cArgsHs
      ⟨str "k", str "hs2019", str "aGk=", none, []⟩ (by decide)).1 (by decide) rfl
  · exact (hs2019_requires_sign_algorithm cArgsLegacy
      ⟨str "k", str "hmac-sha256", str "aGk=", none, []⟩ (by decide)).2 (by decide)

/-- C8: with the authorization header designated as signature-bearing,
construction fails with the parse error when that header is absent from the
map or when its value carries no scheme token; when a space-free scheme
token is present, the remainder after the first space is parsed with the
key/value grammar into the parameter set. -/
theorem authorization_parse_behavior :
    (∀ args, lowerStr args.sign_header = str "authorization" →
      lookupCI args.headers (str "authorization") = none →
      HeaderVerifier.init args = Except.error VerifyError.parseError) ∧
    (∀ args raw, lowerStr args.sign_header = str "authorization" →
      lookupCI args.headers (str "authorization") = some raw →
      splitFirstSpace raw = none →
      HeaderVerifier.init args = Except.error VerifyError.parseError) ∧
    (∀ scheme rest, (∀ c ∈ scheme, c ≠ 32) →
      parse_authorization_header (scheme ++ 32 :: rest) =
        (parse_signature_header rest).map (fun kvs => (scheme, kvs))) := by
  refine ⟨?_, ?_, ?_⟩
  · intro args h1 h2
    have hob : obtainParams args = Except.error VerifyError.parseError := by
      simp only [obtainParams, h1, if_true, h2]
    unfold HeaderVerifier.init
    rw [hob]
  · intro args raw h1 h2 h3
    have hpar : parse_authorization_header raw = Except.error VerifyError.parseError := by
      unfold parse_authorization_header
      rw [h3]
    have hob : obtainParams args = Except.error VerifyError.parseError := by
      simp only [obtainParams, h1, if_true, h2, hpar]
    unfold HeaderVerifier.init
    rw [hob]
  · intro scheme rest h
    unfold parse_authorization_header
    rw [splitFirstSpace_append scheme rest h]

/-- Witness for C8: an absent authorization header, a schemeless value, and
a scheme-prefixed value whose remainder is handed to the grammar parser. -/
theorem authorization_parse_behavior_witness :
    HeaderVerifier.init ⟨[], [], none, none, none, none, str "authorization", none⟩ =
      Except.error VerifyError.parseError ∧
    HeaderVerifier.init ⟨[(str "authorization", str "nospace")], [], none, none, none, none,
      str "authorization", none⟩ = Except.error VerifyError.parseError ∧
    parse_authorization_header (str "Signature" ++ 32 :: str "a=\"b\"") =
      (parse_signature_header (str "a=\"b\"")).map (fun kvs => (str "Signature", kvs)) := by
  refine ⟨?_, ?_, ?_⟩
  · exact authorization_parse_behavior.1 _ (by decide) (by decide)
  · exact authorization_parse_behavior.2.1 _ (str "nospace") (by decide) (by decide) (by decide)
  · exact authorization_parse_behavior.2.2 (str "Signature") (str "a=\"b\"") (by decide)

/-- C9: construction lower-cases every required header name (line 88) while
the signed-headers list is split on single spaces with no case
normalization (line 110); lower-cased text contains no upper-case ASCII
letter, so a signed-headers entry containing one can never satisfy a
lower-cased required name: with required list [lower r] and signed list
[h] where h contains an upper-case letter, verification fails with the
policy error naming lower r. -/
theorem uppercase_signed_header_never_matches :
    (∀ args p hv, obtainParams args = Except.ok p →
      HeaderVerifier.init args = Except.ok hv →
      hv.required_headers = (defaultRequired args.required_headers?).map lowerStr) ∧
    (∀ s c, c ∈ lowerStr s → isUpperAscii c = false) ∧
    (∀ (headers : List (Str × Str)) (secret : Bytes) (m pa ho : Option Str)
      (p : SignatureParams) (fam : AlgoFamily) (adv : Bool) (o : CryptoOracle)
      (r h : Str),
      authHeadersOf p = [h] →
      (∃ c, c ∈ h ∧ isUpperAscii c = true) →
      HeaderVerifier.verify ⟨headers, secret, [lowerStr r], m, pa, ho, p, fam, adv⟩ o =
        Except.error (VerifyError.policyError [lowerStr r])) := by
  refine ⟨?_, lowerStr_no_upper, ?_⟩
  · intro args p hv hp hinit
    rw [init_ok_fields args p hv hp hinit]
  · intro headers secret m pa ho p fam adv o r h hauth hup
    have hne : lowerStr r ≠ h := lowerStr_ne_of_upper_mem r h hup
    have hcont : (([h] : List Str).contains (lowerStr r)) = false := by
      cases hc : (([h] : List Str).contains (lowerStr r)) with
      | false => rfl
      | true =>
        have hmem : lowerStr r ∈ [h] := List.mem_of_elem_eq_true hc
        rcases List.mem_singleton.mp hmem with heq
        exact absurd heq hne
    have hmiss : missingOf [lowerStr r] (authHeadersOf p) = [lowerStr r] := by
      rw [hauth]
      unfold missingOf
      rw [show ([lowerStr r].filter (fun x => !(([h] : List Str).contains x))) = [lowerStr r] by
        simp [List.filter, hcont, hne]]
      rw [List.dedup_cons_of_not_mem (List.not_mem_nil _), List.dedup_nil]
    unfold HeaderVerifier.verify
    dsimp only
    rw [hmiss, if_neg (by simp)]

/-- The verifier that a successful construction from `cArgsLegacy` yields. -/
def cHVLegacy : HeaderVerifier :=
  ⟨[(str "authorization", cAuthLegacy)], [], [str "date"], none, none, none,
   ⟨str "k", str "hmac-sha256", str "aGk=", none, []⟩, AlgoFamily.hmac (str "sha256"), true⟩

/-- Witness for C9: a concrete construction lower-cases the required list,
lower-cased text has no upper-case letter, and a signed-headers entry
"Date" fails the policy check against the lower-cased requirement "date". -/
theorem uppercase_signed_header_never_matches_witness :
    cHVLegacy.required_headers =
      (defaultRequired cArgsLegacy.required_headers?).map lowerStr ∧
    isUpperAscii 100 = false ∧
    HeaderVerifier.verify ⟨[], [], [lowerStr (str "date")], none, none, none,
      ⟨str "k", str "x", str "aGk=", some (str "Date"), []⟩,
      AlgoFamily.other (str "x"), true⟩ oracle0 =
      Except.error (VerifyError.policyError [lowerStr (str "date")]) := by
  refine ⟨?_, ?_, ?_⟩
  · exact uppercase_signed_header_never_matches.1 cArgsLegacy
      ⟨str "k", str "hmac-sha256", str "aGk=", none, []⟩ cHVLegacy (by decide) (by rfl)
  · exact uppercase_signed_header_never_matches.2.1 (str "D") 100 (by decide)
  · exact uppercase_signed_header_never_matches.2.2 [] [] none none none
      ⟨str "k", str "x", str "aGk=", some (str "Date"), []⟩
      (AlgoFamily.other (str "x")) true oracle0 (str "date") (str "Date")
      (by decide) ⟨68, by decide, by decide⟩

/-- C10: a constructor call passing required headers as None or as the empty
list gets the default policy ["date"]: the constructed verifier's required
list is exactly ["date"], and whenever the signed-headers list does not
contain "date", verification fails with the policy error naming it — so an
explicitly empty required-header policy cannot be expressed. -/
theorem empty_required_headers_default
    (args : HeaderVerifierArgs) (p : SignatureParams) (hv : HeaderVerifier)
    (hreq : args.required_headers? = none ∨ args.required_headers? = some [])
    (hp : obtainParams args = Except.ok p)
    (hinit : HeaderVerifier.init args = Except.ok hv) :
    hv.required_headers = [str "date"] ∧
    (∀ o, ¬ (str "date") ∈ authHeadersOf hv.params →
      HeaderVerifier.verify hv o = Except.error (VerifyError.policyError [str "date"])) := by
  have hflds := init_ok_fields args p hv hp hinit
  have hreq' : hv.required_headers = [str "date"] := by
    rw [hflds]
    rcases hreq with h | h <;> (rw [h]; rfl)
  refine ⟨hreq', ?_⟩
  intro o hdnot
  have hcont : ((authHeadersOf hv.params).contains (str "date")) = false := by
    cases hc : ((authHeadersOf hv.params).contains (str "date")) with
    | false => rfl
    | true => exact absurd (List.mem_of_elem_eq_true hc) hdnot
  have hmiss : missingOf hv.required_headers (authHeadersOf hv.params) = [str "date"] := by
    rw [hreq']
    unfold missingOf
    rw [show ([str "date"].filter
        (fun x => !((authHeadersOf hv.params).contains x))) = [str "date"] by
      simp [List.filter, hcont, hdnot]]
    rw [List.dedup_cons_of_not_mem (List.not_mem_nil _), List.dedup_nil]
  unfold HeaderVerifier.verify
  rw [hmiss, if_neg (by simp)]

/-- Concrete authorization value whose signed-headers list is ["digest"]. -/
def cAuthDigest : Str :=
  str "Signature keyId=\"k\",algorithm=\"hmac-sha256\",headers=\"digest\",signature=\"aGk=\""

/-- Constructor arguments passing the explicitly empty required list. -/
def cArgsEmptyReq : HeaderVerifierArgs :=
  ⟨[(str "authorization", cAuthDigest)], [], some [], none, none, none,
   str "authorization", none⟩

/-- The verifier constructed from `cArgsEmptyReq`. -/
def cHVEmptyReq : HeaderVerifier :=
  ⟨[(str "authorization", cAuthDigest)], [], [str "date"], none, none, none,
   ⟨str "k", str "hmac-sha256", str "aGk=", some (str "digest"), []⟩,
   AlgoFamily.hmac (str "sha256"), true⟩

/-- Witness for C10: with the empty required list supplied, the constructed
verifier still requires "date", and verification of a signature covering
only "digest" fails with the policy error naming "date". -/
theorem empty_required_headers_default_witness :
    cHVEmptyReq.required_headers = [str "date"] ∧
    HeaderVerifier.verify cHVEmptyReq oracle0 =
      Except.error (VerifyError.policyError [str "date"]) := by
  have h := empty_required_headers_default cArgsEmptyReq
    ⟨str "k", str "hmac-sha256", str "aGk=", some (str "digest"), []⟩ cHVEmptyReq
    (Or.inr rfl) (by decide) (by rfl)
  exact ⟨h.1, h.2 oracle0 (by decide)⟩
